import Mathlib

/-!
Verification of the tour-tracker monitoring script (src/tracker.py) against its
natural-language specification.  We shallowly embed the JSON data model, the
canonical serialization used for hashing (json.dumps with sorted keys, compact
separators and ensure_ascii=False), the pretty printer used for snapshots
(json.dump with indent=2), SHA-256, Python's str.strip, and the orchestrator
main() as a transition function over an explicit filesystem state.
-/

namespace Tracker

/-- JSON-compatible values: objects, arrays, strings, numbers, booleans, null.
Numbers are modelled as integers (the remote documents treated here are
integer-valued; the claims under study do not depend on float formatting). -/
inductive Json where
  | null : Json
  | bool : Bool → Json
  | num : Int → Json
  | str : String → Json
  | arr : List Json → Json
  | obj : List (String × Json) → Json

/-- Characters stripped by Python str.strip() with no argument: the Unicode
whitespace set used by str.isspace. -/
def isPySpace (c : Char) : Bool :=
  let n := c.toNat
  (0x09 ≤ n && n ≤ 0x0d) || n == 0x20 || (0x1c ≤ n && n ≤ 0x1f) ||
  n == 0x85 || n == 0xa0 || n == 0x1680 || (0x2000 ≤ n && n ≤ 0x200a) ||
  n == 0x2028 || n == 0x2029 || n == 0x202f || n == 0x205f || n == 0x3000

/-- Python str.strip() on a list of characters: drop leading and trailing
whitespace. -/
def stripChars (l : List Char) : List Char :=
  ((l.dropWhile isPySpace).reverse.dropWhile isPySpace).reverse

/-- Python str.strip(). -/
def pyStrip (s : String) : String :=
  String.mk (stripChars s.toList)

/-- Lexicographic-by-code-point comparison of character lists: how Python
compares strings.  Executable and kernel-reducible. -/
def charListLE : List Char → List Char → Bool
  | [], _ => true
  | _ :: _, [] => false
  | x :: xs, y :: ys =>
      if x.toNat < y.toNat then true
      else if x.toNat = y.toNat then charListLE xs ys
      else false

/-- Key order used by json.dumps(sort_keys=True): pairs compared by key with
Python's string order. -/
def keyLE (p q : String × Json) : Prop := charListLE p.1.toList q.1.toList = true

instance : DecidableRel keyLE :=
  fun p q => inferInstanceAs (Decidable (charListLE p.1.toList q.1.toList = true))

/-- Sort an object's key/value pairs by key ascending, as json.dumps does
via sorted(items()). -/
def sortPairs (l : List (String × Json)) : List (String × Json) :=
  List.insertionSort keyLE l

mutual

/-- Recursively sort every object's pairs by key.  json.dumps(sort_keys=True)
sorts each object's items at the moment it serializes them; serializing the
canonicalized tree in list order is the same thing. -/
def canon : Json → Json
  | Json.null => Json.null
  | Json.bool b => Json.bool b
  | Json.num n => Json.num n
  | Json.str s => Json.str s
  | Json.arr xs => Json.arr (canonList xs)
  | Json.obj kvs => Json.obj (sortPairs (canonPairs kvs))

def canonList : List Json → List Json
  | [] => []
  | x :: xs => canon x :: canonList xs

def canonPairs : List (String × Json) → List (String × Json)
  | [] => []
  | (k, v) :: xs => (k, canon v) :: canonPairs xs

end

/-- The sixteen lowercase hex digit characters: the ten digits followed by
the first six lowercase letters. -/
def hexDigits : List Char :=
  [ '0', '1', '2', '3', '4' ] ++ [ '5', '6', '7', '8', '9' ] ++
  [ 'a', 'b', 'c' ] ++ [ 'd', 'e', 'f' ]

/-- Hex digit character, lowercase, as Python uses in hexdigest(). -/
def hexChar (n : Nat) : Char := hexDigits.getD n ('0')

/-- Is the character a lowercase hex digit. -/
def isLowerHex (c : Char) : Bool := hexDigits.contains c

/-- Four-digit lowercase hex, used in \u escapes. -/
def hex4 (n : Nat) : String :=
  String.mk [hexChar (n / 4096 % 16), hexChar (n / 256 % 16),
             hexChar (n / 16 % 16), hexChar (n % 16)]

/-- Escape one character the way json.dumps(ensure_ascii=False) does: quote,
backslash and control characters are escaped, everything else (including
non-ASCII) is passed through. -/
def escapeChar (c : Char) : List Char :=
  if c = ('"') then [ '\\', '"' ]
  else if c = ('\\') then [ '\\', '\\' ]
  else if c = ('\n') then [ '\\', 'n' ]
  else if c = ('\t') then [ '\\', 't' ]
  else if c = ('\r') then [ '\\', 'r' ]
  else if c = (Char.ofNat 8) then [ '\\', 'b' ]
  else if c = (Char.ofNat 12) then [ '\\', 'f' ]
  else if c.toNat < 0x20 then ('\\') :: ('u') :: (hex4 c.toNat).toList
  else [c]

/-- JSON string literal: quoted, escaped. -/
def quoteStr (s : String) : String :=
  String.mk (('"') :: s.toList.flatMap escapeChar ++ [ '"' ])

mutual

/-- Compact JSON serialization of an already-canonicalized tree, with the
separators (",", ":") of json.dumps(separators=(',', ':')): no whitespace. -/
def ser : Json → String
  | Json.null => "null"
  | Json.bool true => "true"
  | Json.bool false => "false"
  | Json.num n => toString n
  | Json.str s => quoteStr s
  | Json.arr xs => "[" ++ serList xs ++ "]"
  | Json.obj kvs => "\x7b" ++ serPairs kvs ++ "\x7d"

def serList : List Json → String
  | [] => ""
  | [x] => ser x
  | x :: y :: xs => ser x ++ "," ++ serList (y :: xs)

def serPairs : List (String × Json) → String
  | [] => ""
  | [(k, v)] => quoteStr k ++ ":" ++ ser v
  | (k, v) :: q :: xs => quoteStr k ++ ":" ++ ser v ++ "," ++ serPairs (q :: xs)

end

/-- The canonical serialization used for hashing:
json.dumps(data, sort_keys=True, separators=(',', ':'), ensure_ascii=False). -/
def dumpsCompact (j : Json) : String := ser (canon j)

/-- Indentation prefix at nesting depth d for indent=2. -/
def indentStr (d : Nat) : String := String.mk (List.replicate (2 * d) (' '))

mutual

/-- Pretty serialization of an already-canonicalized tree, as
json.dump(..., indent=2, ensure_ascii=False, sort_keys=True): items one per
line, 2-space indentation, key separator ": ", item separator ",". -/
def pser (d : Nat) : Json → String
  | Json.null => "null"
  | Json.bool true => "true"
  | Json.bool false => "false"
  | Json.num n => toString n
  | Json.str s => quoteStr s
  | Json.arr [] => "[]"
  | Json.arr (x :: xs) => "[\n" ++ pserList (d + 1) (x :: xs) ++ "\n" ++ indentStr d ++ "]"
  | Json.obj [] => "\x7b\x7d"
  | Json.obj (kv :: kvs) =>
      "\x7b\n" ++ pserPairs (d + 1) (kv :: kvs) ++ "\n" ++ indentStr d ++ "\x7d"

def pserList (d : Nat) : List Json → String
  | [] => ""
  | [x] => indentStr d ++ pser d x
  | x :: y :: xs => indentStr d ++ pser d x ++ ",\n" ++ pserList d (y :: xs)

def pserPairs (d : Nat) : List (String × Json) → String
  | [] => ""
  | [(k, v)] => indentStr d ++ quoteStr k ++ ": " ++ pser d v
  | (k, v) :: q :: xs =>
      indentStr d ++ quoteStr k ++ ": " ++ pser d v ++ ",\n" ++ pserPairs d (q :: xs)

end

/-- Pretty-printed, key-sorted form written into snapshot files (before the
final newline added by f.write). -/
def dumpsPretty (j : Json) : String := pser 0 (canon j)

/-- UTF-8 encoding of one character (code point), as bytes. -/
def utf8Char (c : Char) : List Nat :=
  let n := c.toNat
  if n < 128 then [n]
  else if n < 2048 then [192 + n / 64, 128 + n % 64]
  else if n < 65536 then [224 + n / 4096, 128 + n / 64 % 64, 128 + n % 64]
  else [240 + n / 262144, 128 + n / 4096 % 64, 128 + n / 64 % 64, 128 + n % 64]

/-- UTF-8 encoding of a string, the byte sequence fed to hashlib.sha256. -/
def utf8Bytes (s : String) : List Nat := s.toList.flatMap utf8Char

/-! ### SHA-256 (hashlib.sha256, FIPS 180-4), over byte lists with 32-bit
words represented as naturals reduced mod 2^32. -/

/-- The eight working registers of the SHA-256 compression function. -/
structure Regs where
  a : Nat
  b : Nat
  c : Nat
  d : Nat
  e : Nat
  f : Nat
  g : Nat
  h : Nat

/-- Addition mod 2^32. -/
def add32 (x y : Nat) : Nat := (x + y) % 4294967296

/-- Rotate a 32-bit word right by n positions. -/
def rotr (n x : Nat) : Nat := ((x >>> n) ||| (x <<< (32 - n))) % 4294967296

/-- Bitwise complement of a 32-bit word. -/
def bnot32 (x : Nat) : Nat := x ^^^ 4294967295

def bigSigma0 (x : Nat) : Nat := rotr 2 x ^^^ rotr 13 x ^^^ rotr 22 x

def bigSigma1 (x : Nat) : Nat := rotr 6 x ^^^ rotr 11 x ^^^ rotr 25 x

def smallSigma0 (x : Nat) : Nat := rotr 7 x ^^^ rotr 18 x ^^^ (x >>> 3)

def smallSigma1 (x : Nat) : Nat := rotr 17 x ^^^ rotr 19 x ^^^ (x >>> 10)

def chFn (e f g : Nat) : Nat := (e &&& f) ^^^ (bnot32 e &&& g)

def majFn (a b c : Nat) : Nat := (a &&& b) ^^^ (a &&& c) ^^^ (b &&& c)

/-- The 64 SHA-256 round constants, written in decimal. -/
def K : List Nat :=
  [ 1116352408, 1899447441, 3049323471, 3921009573,
    961987163, 1508970993, 2453635748, 2870763221,
    3624381080, 310598401, 607225278, 1426881987,
    1925078388, 2162078206, 2614888103, 3248222580,
    3835390401, 4022224774, 264347078, 604807628,
    770255983, 1249150122, 1555081692, 1996064986,
    2554220882, 2821834349, 2952996808, 3210313671,
    3336571891, 3584528711, 113926993, 338241895,
    666307205, 773529912, 1294757372, 1396182291,
    1695183700, 1986661051, 2177026350, 2456956037,
    2730485921, 2820302411, 3259730800, 3345764771,
    3516065817, 3600352804, 4094571909, 275423344,
    430227734, 506948616, 659060556, 883997877,
    958139571, 1322822218, 1537002063, 1747873779,
    1955562222, 2024104815, 2227730452, 2361852424,
    2428436474, 2756734187, 3204031479, 3329325298 ]

/-- The initial register values of SHA-256, written in decimal. -/
def initRegs : Regs :=
  ⟨1779033703, 3144134277, 1013904242, 2773480762,
   1359893119, 2600822924, 528734635, 1541459225⟩

/-- Big-endian 32-bit word from four bytes of the block. -/
def word (bs : List Nat) (i : Nat) : Nat :=
  bs.getD (4 * i) 0 * 16777216 + bs.getD (4 * i + 1) 0 * 65536 +
  bs.getD (4 * i + 2) 0 * 256 + bs.getD (4 * i + 3) 0

/-- Append the next scheduled word to the message schedule. -/
def extendW (w : List Nat) : List Nat :=
  let n := w.length
  w ++ [ add32 (add32 (smallSigma1 (w.getD (n - 2) 0)) (w.getD (n - 7) 0))
               (add32 (smallSigma0 (w.getD (n - 15) 0)) (w.getD (n - 16) 0)) ]

/-- The 64-word message schedule of one 64-byte block. -/
def schedule (block : List Nat) : List Nat :=
  (List.range 48).foldl (fun w _ => extendW w) ((List.range 16).map (word block))

/-- One round of the compression function. -/
def roundStep (w : List Nat) (r : Regs) (i : Nat) : Regs :=
  let t1 := add32 (add32 (add32 r.h (bigSigma1 r.e))
                         (add32 (chFn r.e r.f r.g) (K.getD i 0)))
                  (w.getD i 0)
  let t2 := add32 (bigSigma0 r.a) (majFn r.a r.b r.c)
  ⟨add32 t1 t2, r.a, r.b, r.c, add32 r.d t1, r.e, r.f, r.g⟩

/-- Compress one 64-byte block into the running hash state. -/
def processBlock (r : Regs) (block : List Nat) : Regs :=
  let w := schedule block
  let s := (List.range 64).foldl (roundStep w) r
  ⟨add32 r.a s.a, add32 r.b s.b, add32 r.c s.c, add32 r.d s.d,
   add32 r.e s.e, add32 r.f s.f, add32 r.g s.g, add32 r.h s.h⟩

/-- Big-endian 8-byte encoding of the bit length. -/
def lenBytes (n : Nat) : List Nat :=
  [ n / 72057594037927936 % 256, n / 281474976710656 % 256,
    n / 1099511627776 % 256, n / 4294967296 % 256,
    n / 16777216 % 256, n / 65536 % 256, n / 256 % 256, n % 256 ]

/-- SHA-256 padding: 0x80, zeros to 56 mod 64, then the 64-bit bit length. -/
def pad (msg : List Nat) : List Nat :=
  msg ++ 128 :: List.replicate ((119 - msg.length % 64) % 64) 0 ++
    lenBytes (8 * msg.length)

/-- Split into successive 64-byte blocks (fuel-driven structural recursion;
the fuel, initialized to the list length, always suffices since every step
consumes at least one byte). -/
def chunks64Go : Nat → List Nat → List (List Nat)
  | 0, _ => []
  | _, [] => []
  | fuel + 1, x :: xs => ((x :: xs).take 64) :: chunks64Go fuel ((x :: xs).drop 64)

/-- Split into successive 64-byte blocks. -/
def chunks64 (l : List Nat) : List (List Nat) := chunks64Go l.length l

/-- Big-endian bytes of a 32-bit word. -/
def wordBytes (x : Nat) : List Nat :=
  [x / 16777216 % 256, x / 65536 % 256, x / 256 % 256, x % 256]

/-- The 32 digest bytes. -/
def regsBytes (r : Regs) : List Nat :=
  wordBytes r.a ++ wordBytes r.b ++ wordBytes r.c ++ wordBytes r.d ++
  wordBytes r.e ++ wordBytes r.f ++ wordBytes r.g ++ wordBytes r.h

/-- Lowercase hex rendering of a byte list (hexdigest). -/
def bytesToHex : List Nat → String
  | [] => ""
  | b :: bs => String.mk [hexChar (b / 16 % 16), hexChar (b % 16)] ++ bytesToHex bs

/-- SHA-256 lowercase hex digest of a byte sequence. -/
def sha256hex (msg : List Nat) : String :=
  bytesToHex (regsBytes ((chunks64 (pad msg)).foldl processBlock initRegs))

/-- calculate_hash from src/tracker.py: SHA-256 hex digest of the UTF-8
encoded canonical serialization. -/
def calculate_hash (data : Json) : String :=
  sha256hex (utf8Bytes (dumpsCompact data))

/-! ### The fingerprint store, snapshot writer and orchestrator.
The filesystem is modelled explicitly: the fingerprint record is the optional
content of last_hash.txt, snapshots are the list of snapshot file contents in
creation order, and stdout is the list of printed lines. -/

/-- read_last_hash from src/tracker.py: the stripped content of the record
file, or the empty string when the file does not exist. -/
def read_last_hash (file : Option String) : String :=
  match file with
  | none => ""
  | some s => pyStrip s

/-- save_hash from src/tracker.py: the content written to last_hash.txt. -/
def save_hash (hashValue : String) : String := hashValue ++ "\n"

/-- Content of a snapshot file: pretty-printed key-sorted JSON plus the final
newline written by f.write. -/
def snapshotContent (data : Json) : String := dumpsPretty data ++ "\n"

/-- The fixed URL fetched by main(). -/
def url : String := "https://ibighit.com/data/tour_ticket/tour_schedule_list.json"

/-- Observable filesystem and console state across runs. -/
structure World where
  lastHashFile : Option String
  snapshots : List String
  stdout : List String

/-- Result of the download_json step: the parsed document, or the exception
it raised (requests.RequestException, caught first, or any other Exception). -/
inductive FetchOutcome where
  | success (data : Json)
  | requestError (msg : String)
  | otherError (msg : String)

/-- Whether the two filesystem writes of the persisting phase fail (raise
IOError) when attempted. -/
structure IOBehavior where
  snapshotFails : Bool
  hashWriteFails : Bool

/-- How the process ends: a normal return from main(), or an exception that
propagates out of main() uncaught. -/
inductive RunOutcome where
  | normal
  | uncaught (msg : String)
deriving DecidableEq

/-- main() from src/tracker.py as a transition on the observable state.
ts is the UTC timestamp used in the snapshot file name.  Mirrors the source
statement by statement: the try/except only protects download_json; the
snapshot write and the hash write are unprotected, so their IOError
propagates uncaught. -/
def runMain (fetch : FetchOutcome) (io : IOBehavior) (ts : String) (w : World) :
    World × RunOutcome :=
  let w0 := { w with stdout := w.stdout ++ ["Downloading data from " ++ url] }
  match fetch with
  | FetchOutcome.requestError e =>
      ({ w0 with stdout := w0.stdout ++ ["Error downloading data: " ++ e] },
       RunOutcome.normal)
  | FetchOutcome.otherError e =>
      ({ w0 with stdout := w0.stdout ++ ["Unexpected error: " ++ e] },
       RunOutcome.normal)
  | FetchOutcome.success data =>
      let currentHash := calculate_hash data
      let lastHash := read_last_hash w.lastHashFile
      let w1 := { w0 with stdout := w0.stdout ++
        ["Current hash: " ++ currentHash, "Last hash: " ++ lastHash] }
      if currentHash ≠ lastHash then
        let w2 := { w1 with stdout := w1.stdout ++ ["Data has changed!"] }
        if io.snapshotFails then
          (w2, RunOutcome.uncaught ("IOError: snapshot write failed"))
        else
          let w3 := { w2 with
            snapshots := w2.snapshots ++ [snapshotContent data],
            stdout := w2.stdout ++
              ["Snapshot saved: snapshots/tour_" ++ ts ++ ".json"] }
          if io.hashWriteFails then
            (w3, RunOutcome.uncaught ("IOError: hash write failed"))
          else
            ({ w3 with
               lastHashFile := some (save_hash currentHash),
               stdout := w3.stdout ++ ["Hash updated successfully"] },
             RunOutcome.normal)
      else
        ({ w1 with stdout := w1.stdout ++ ["No changes detected"] },
         RunOutcome.normal)

/-! ### Well-formed documents and key reordering.
Documents decoded from JSON into Python dicts have distinct keys in every
object; wfJson captures that.  KeyPerm a b holds when b is a at every level
up to a permutation of each object's key/value pairs. -/

/-- The key k does not occur in the pair list. -/
def keyNotIn (k : String) : List (String × Json) → Bool
  | [] => true
  | (k2, _) :: xs => !(k == k2) && keyNotIn k xs

/-- All keys of the pair list are distinct. -/
def nodupKeys : List (String × Json) → Bool
  | [] => true
  | (k, _) :: xs => keyNotIn k xs && nodupKeys xs

mutual

/-- Every object in the document has distinct keys. -/
def wfJson : Json → Bool
  | Json.null => true
  | Json.bool _ => true
  | Json.num _ => true
  | Json.str _ => true
  | Json.arr xs => wfList xs
  | Json.obj kvs => nodupKeys kvs && wfPairs kvs

def wfList : List Json → Bool
  | [] => true
  | x :: xs => wfJson x && wfList xs

def wfPairs : List (String × Json) → Bool
  | [] => true
  | (_, v) :: xs => wfJson v && wfPairs xs

end

mutual

/-- Two documents differ only in the order of object keys, at any nesting
level: equal scalars, arrays pointwise related, and objects related by first
relating pairs with identical keys pointwise and then permuting the pairs. -/
inductive KeyPerm : Json → Json → Prop where
  | null : KeyPerm Json.null Json.null
  | bool (b : Bool) : KeyPerm (Json.bool b) (Json.bool b)
  | num (n : Int) : KeyPerm (Json.num n) (Json.num n)
  | str (s : String) : KeyPerm (Json.str s) (Json.str s)
  | arr {xs ys : List Json} : KeyPermList xs ys → KeyPerm (Json.arr xs) (Json.arr ys)
  | obj {l1 l2 l3 : List (String × Json)} :
      KeyPermPairs l1 l2 → l2.Perm l3 → KeyPerm (Json.obj l1) (Json.obj l3)

/-- Pointwise KeyPerm on arrays. -/
inductive KeyPermList : List Json → List Json → Prop where
  | nil : KeyPermList [] []
  | cons {x y : Json} {xs ys : List Json} :
      KeyPerm x y → KeyPermList xs ys → KeyPermList (x :: xs) (y :: ys)

/-- Pointwise KeyPerm on pair lists, keys kept in place. -/
inductive KeyPermPairs : List (String × Json) → List (String × Json) → Prop where
  | nil : KeyPermPairs [] []
  | cons {k : String} {v w : Json} {l1 l2 : List (String × Json)} :
      KeyPerm v w → KeyPermPairs l1 l2 →
      KeyPermPairs ((k, v) :: l1) ((k, w) :: l2)

end

mutual

/-- Size measure for strong induction over the nested Json type. -/
def jsize : Json → Nat
  | Json.null => 1
  | Json.bool _ => 1
  | Json.num _ => 1
  | Json.str _ => 1
  | Json.arr xs => 1 + lsize xs
  | Json.obj kvs => 1 + psize kvs

def lsize : List Json → Nat
  | [] => 0
  | x :: xs => jsize x + lsize xs + 1

def psize : List (String × Json) → Nat
  | [] => 0
  | (_, v) :: xs => jsize v + psize xs + 1

end

/-- Did the download_json step raise (either exception kind). -/
def isFetchFailure : FetchOutcome → Bool
  | FetchOutcome.success _ => false
  | FetchOutcome.requestError _ => true
  | FetchOutcome.otherError _ => true

/-- Every character of the string is Python whitespace. -/
def allSpace (s : String) : Bool := s.data.all isPySpace

/-- Both filesystem writes succeed. -/
def noFail : IOBehavior := ⟨false, false⟩

/-- The example document of the specification, with keys out of order. -/
def sampleDoc : Json := Json.obj [("b", Json.num 2), ("a", Json.num 1)]

/-- The example document with its keys in the other order. -/
def sampleDocReordered : Json := Json.obj [("a", Json.num 1), ("b", Json.num 2)]

/-- An initial state: no fingerprint record, no snapshots, empty console. -/
def freshWorld : World := ⟨none, [], []⟩

/-! ### Order properties of the key comparison. -/

theorem charToNat_inj {a b : Char} (h : a.toNat = b.toNat) : a = b := by
  cases a with
  | mk v1 h1 =>
    cases b with
    | mk v2 h2 =>
      simp only [Char.toNat] at h
      congr 1
      cases v1; cases v2
      simp only [UInt32.toNat] at h
      congr 1
      exact BitVec.eq_of_toNat_eq h

theorem charListLE_refl (l : List Char) : charListLE l l = true := by
  induction l with
  | nil => rfl
  | cons x xs ih => simp [charListLE, ih]

theorem charListLE_total (a b : List Char) :
    charListLE a b = true ∨ charListLE b a = true := by
  induction a generalizing b with
  | nil => left; rfl
  | cons x xs ih =>
    cases b with
    | nil => right; rfl
    | cons y ys =>
      rcases Nat.lt_trichotomy x.toNat y.toNat with h | h | h
      · left; simp [charListLE, h]
      · rcases ih ys with h2 | h2
        · left; simp [charListLE, h, h2]
        · right; simp [charListLE, h.symm, h2]
      · right; simp [charListLE, h]

theorem charListLE_antisymm :
    ∀ {a b : List Char}, charListLE a b = true → charListLE b a = true → a = b := by
  intro a
  induction a with
  | nil =>
    intro b _ hba
    cases b with
    | nil => rfl
    | cons y ys => simp [charListLE] at hba
  | cons x xs ih =>
    intro b hab hba
    cases b with
    | nil => simp [charListLE] at hab
    | cons y ys =>
      rcases Nat.lt_trichotomy x.toNat y.toNat with h | h | h
      · simp [charListLE, h, Nat.lt_asymm h, Nat.ne_of_gt h] at hba
      · have hxy : x = y := charToNat_inj h
        subst hxy
        simp only [charListLE, Nat.lt_irrefl, if_false, if_pos rfl] at hab hba
        exact congrArg (List.cons x) (ih hab hba)
      · simp [charListLE, h, Nat.lt_asymm h, Nat.ne_of_gt h] at hab

theorem charListLE_trans :
    ∀ {a b c : List Char}, charListLE a b = true → charListLE b c = true →
      charListLE a c = true := by
  intro a
  induction a with
  | nil => intro b c _ _; rfl
  | cons x xs ih =>
    intro b c hab hbc
    cases b with
    | nil => simp [charListLE] at hab
    | cons y ys =>
      cases c with
      | nil => simp [charListLE] at hbc
      | cons z zs =>
        rcases Nat.lt_trichotomy x.toNat y.toNat with hxy | hxy | hxy <;>
          rcases Nat.lt_trichotomy y.toNat z.toNat with hyz | hyz | hyz
        · simp [charListLE, Nat.lt_trans hxy hyz]
        · simp [charListLE, hyz ▸ hxy]
        · simp [charListLE, hyz, Nat.lt_asymm hyz, Nat.ne_of_gt hyz] at hbc
        · simp [charListLE, hxy ▸ hyz]
        · have hxz : x.toNat = z.toNat := hxy.trans hyz
          simp [charListLE, hxy, hyz, hxz] at hab hbc ⊢
          exact ih hab hbc
        · simp [charListLE, hyz, Nat.lt_asymm hyz, Nat.ne_of_gt hyz] at hbc
        · simp [charListLE, hxy, Nat.lt_asymm hxy, Nat.ne_of_gt hxy] at hab
        · simp [charListLE, hxy, Nat.lt_asymm hxy, Nat.ne_of_gt hxy] at hab
        · simp [charListLE, hxy, Nat.lt_asymm hxy, Nat.ne_of_gt hxy] at hab

instance : IsTotal (String × Json) keyLE :=
  ⟨fun p q => charListLE_total p.1.toList q.1.toList⟩

instance : IsTrans (String × Json) keyLE :=
  ⟨fun _ _ _ h h2 => charListLE_trans h h2⟩

/-- Strict key order: keys comparable and distinct. -/
def keyLT (p q : String × Json) : Prop := keyLE p q ∧ p.1 ≠ q.1

instance : IsAntisymm (String × Json) keyLT :=
  ⟨fun p q h h2 => by
    have hk : p.1 = q.1 :=
      String.toList_inj.mp (charListLE_antisymm h.1 h2.1)
    exact absurd hk h.2⟩

theorem keyNotIn_spec {k : String} {l : List (String × Json)}
    (h : keyNotIn k l = true) : ∀ p ∈ l, k ≠ p.1 := by
  induction l with
  | nil => intro p hp; cases hp
  | cons q l ih =>
    cases q with
    | mk k2 v =>
      simp only [keyNotIn, Bool.and_eq_true, Bool.not_eq_true', beq_eq_false_iff_ne] at h
      intro p hp
      rcases List.mem_cons.mp hp with hp | hp
      · subst hp; exact h.1
      · exact ih h.2 p hp

theorem nodupKeys_pairwise {l : List (String × Json)} (h : nodupKeys l = true) :
    l.Pairwise (fun p q => p.1 ≠ q.1) := by
  induction l with
  | nil => exact List.Pairwise.nil
  | cons q l ih =>
    cases q with
    | mk k v =>
      simp only [nodupKeys, Bool.and_eq_true] at h
      exact List.Pairwise.cons (keyNotIn_spec h.1) (ih h.2)

theorem sortPairs_perm (l : List (String × Json)) : (sortPairs l).Perm l :=
  List.perm_insertionSort keyLE l

theorem sortPairs_sorted (l : List (String × Json)) :
    List.Sorted keyLE (sortPairs l) :=
  List.sorted_insertionSort keyLE l

theorem sortPairs_eq_of_perm {l1 l2 : List (String × Json)} (hp : l1.Perm l2)
    (hnd : l1.Pairwise (fun p q => p.1 ≠ q.1)) : sortPairs l1 = sortPairs l2 := by
  have hnd1 : (sortPairs l1).Pairwise (fun p q => p.1 ≠ q.1) :=
    ((sortPairs_perm l1).pairwise_iff (fun h => Ne.symm h)).mpr hnd
  have hnd2 : (sortPairs l2).Pairwise (fun p q => p.1 ≠ q.1) :=
    ((sortPairs_perm l2).pairwise_iff (fun h => Ne.symm h)).mpr
      ((hp.pairwise_iff (fun h => Ne.symm h)).mp hnd)
  refine @List.eq_of_perm_of_sorted _ keyLT _ _ _
    ((sortPairs_perm l1).trans (hp.trans (sortPairs_perm l2).symm)) ?_ ?_
  · exact List.Pairwise.and (sortPairs_sorted l1) hnd1
  · exact List.Pairwise.and (sortPairs_sorted l2) hnd2

/-! ### Canonicalization respects key reordering. -/

theorem canonPairs_map (l : List (String × Json)) :
    canonPairs l = l.map (fun p => (p.1, canon p.2)) := by
  induction l with
  | nil => rfl
  | cons p l ih => cases p with | mk k v => simp [canonPairs, ih]

theorem keyPermPairs_keys : ∀ {l1 l2 : List (String × Json)},
    KeyPermPairs l1 l2 → l1.map Prod.fst = l2.map Prod.fst := by
  intro l1
  induction l1 with
  | nil => intro l2 h; cases h; rfl
  | cons p t ih =>
    intro l2 h
    cases h with
    | cons hv htail => simp [ih htail]

/-- canon maps KeyPerm-related documents (with distinct keys in every object
of the left one) to the same canonical tree: strong induction on size. -/
theorem canon_keyPerm_all (n : Nat) :
    (∀ a b, jsize a ≤ n → wfJson a = true → KeyPerm a b → canon a = canon b) ∧
    (∀ xs ys, lsize xs ≤ n → wfList xs = true → KeyPermList xs ys →
      canonList xs = canonList ys) ∧
    (∀ l1 l2, psize l1 ≤ n → wfPairs l1 = true → KeyPermPairs l1 l2 →
      canonPairs l1 = canonPairs l2) := by
  induction n using Nat.strong_induction_on with
  | _ n ih =>
    refine ⟨?_, ?_, ?_⟩
    · intro a b hsz hwf hp
      cases hp with
      | null => rfl
      | bool b => rfl
      | num m => rfl
      | str s => rfl
      | arr hl =>
        rename_i xs ys
        simp only [jsize] at hsz
        simp only [wfJson] at hwf
        have := (ih (lsize xs) (by omega)).2.1 xs ys (le_refl _) hwf hl
        simp [canon, this]
      | obj hpairs hperm =>
        rename_i l1 l2 l3
        simp only [jsize] at hsz
        simp only [wfJson, Bool.and_eq_true] at hwf
        have h12 : canonPairs l1 = canonPairs l2 :=
          (ih (psize l1) (by omega)).2.2 l1 l2 (le_refl _) hwf.2 hpairs
        have h23 : (canonPairs l2).Perm (canonPairs l3) := by
          rw [canonPairs_map l2, canonPairs_map l3]
          exact hperm.map _
        have hnd : (canonPairs l1).Pairwise (fun p q => p.1 ≠ q.1) := by
          rw [canonPairs_map l1, List.pairwise_map]
          exact nodupKeys_pairwise hwf.1
        have : sortPairs (canonPairs l1) = sortPairs (canonPairs l3) := by
          rw [h12]
          exact sortPairs_eq_of_perm h23 (h12 ▸ hnd)
        simp [canon, this]
    · intro xs ys hsz hwf hl
      cases hl with
      | nil => rfl
      | cons hx htail =>
        rename_i x y xs2 ys2
        simp only [lsize] at hsz
        simp only [wfList, Bool.and_eq_true] at hwf
        have h1 := (ih (jsize x) (by omega)).1 x y (le_refl _) hwf.1 hx
        have h2 := (ih (lsize xs2) (by omega)).2.1 xs2 ys2 (le_refl _) hwf.2 htail
        simp [canonList, h1, h2]
    · intro l1 l2 hsz hwf hp
      cases hp with
      | nil => rfl
      | cons hv htail =>
        rename_i k v w t1 t2
        simp only [psize] at hsz
        simp only [wfPairs, Bool.and_eq_true] at hwf
        have h1 := (ih (jsize v) (by omega)).1 v w (le_refl _) hwf.1 hv
        have h2 := (ih (psize t1) (by omega)).2.2 t1 t2 (le_refl _) hwf.2 htail
        simp [canonPairs, h1, h2]

/-! ### Properties of str.strip and of hex digests. -/

theorem dropWhile_append_all {p : Char → Bool} {l1 l2 : List Char}
    (h : ∀ a ∈ l1, p a = true) :
    (l1 ++ l2).dropWhile p = l2.dropWhile p := by
  induction l1 with
  | nil => rfl
  | cons x xs ih =>
    have hx : p x = true := h x (List.mem_cons_self x xs)
    simp only [List.cons_append, List.dropWhile_cons, hx, if_true]
    exact ih (fun a ha => h a (List.mem_cons_of_mem x ha))

theorem dropWhile_all_true {p : Char → Bool} {l : List Char}
    (h : ∀ a ∈ l, p a = true) : l.dropWhile p = [] := by
  have := @dropWhile_append_all p l [] h
  simpa using this

theorem dropWhile_append_ne {p : Char → Bool} :
    ∀ {l1 : List Char} (l2 : List Char), List.dropWhile p l1 ≠ [] →
      List.dropWhile p (l1 ++ l2) = List.dropWhile p l1 ++ l2 := by
  intro l1
  induction l1 with
  | nil => intro l2 h; exact absurd rfl h
  | cons x xs ih =>
    intro l2 h
    by_cases hx : p x = true
    · simp only [List.dropWhile_cons, hx, if_true] at h ⊢
      simpa [List.dropWhile_cons, hx] using ih l2 h
    · have hx2 : p x = false := by simpa using hx
      simp [List.dropWhile_cons, hx2]

theorem stripChars_left_pad {w l : List Char}
    (hw : ∀ c ∈ w, isPySpace c = true) :
    stripChars (w ++ l) = stripChars l := by
  unfold stripChars
  rw [dropWhile_append_all hw]

theorem stripChars_right_pad {l w : List Char}
    (hw : ∀ c ∈ w, isPySpace c = true) :
    stripChars (l ++ w) = stripChars l := by
  unfold stripChars
  by_cases hA : List.dropWhile isPySpace l = []
  · have hl : ∀ c ∈ l, isPySpace c = true := by
      have := List.dropWhile_eq_nil_iff.mp hA
      simpa using this
    have hlw : ∀ c ∈ l ++ w, isPySpace c = true := by
      intro c hc
      rcases List.mem_append.mp hc with hc | hc
      · exact hl c hc
      · exact hw c hc
    rw [dropWhile_all_true hlw, hA]
  · rw [dropWhile_append_ne w hA, List.reverse_append,
      dropWhile_append_all (fun c hc => hw c (List.mem_reverse.mp hc))]

theorem stripChars_nonspace {l : List Char}
    (h : ∀ c ∈ l, isPySpace c = false) : stripChars l = l := by
  unfold stripChars
  have h1 : List.dropWhile isPySpace l = l := by
    cases l with
    | nil => rfl
    | cons x xs => simp [List.dropWhile_cons, h x (List.mem_cons_self x xs)]
  rw [h1]
  have h2 : List.dropWhile isPySpace l.reverse = l.reverse := by
    cases hr : l.reverse with
    | nil => rfl
    | cons x xs =>
      have hx : x ∈ l := by
        rw [← List.mem_reverse, hr]
        exact List.mem_cons_self x xs
      simp [List.dropWhile_cons, h x hx]
  rw [h2, List.reverse_reverse]

theorem pyStrip_append_newline (s : String) :
    pyStrip (s ++ "\n") = pyStrip s := by
  unfold pyStrip
  have : (s ++ "\n").toList = s.toList ++ [ '\n' ] := String.data_append s ("\n")
  rw [this, stripChars_right_pad (by decide)]

theorem read_save_roundtrip {h : String} (hs : pyStrip h = h) :
    read_last_hash (some (save_hash h)) = h := by
  show pyStrip (h ++ "\n") = h
  rw [pyStrip_append_newline, hs]

theorem hexChar_mem (n : Nat) : hexChar n ∈ hexDigits := by
  unfold hexChar
  rcases Nat.lt_or_ge n 16 with h | h
  · interval_cases n <;> decide
  · rw [List.getD_eq_default]
    · decide
    · simpa [hexDigits] using h

theorem bytesToHex_chars :
    ∀ (l : List Nat) c, c ∈ (bytesToHex l).data → c ∈ hexDigits := by
  intro l
  induction l with
  | nil => intro c hc; cases hc
  | cons b bs ih =>
    intro c hc
    have : (bytesToHex (b :: bs)).data =
        [hexChar (b / 16 % 16), hexChar (b % 16)] ++ (bytesToHex bs).data := by
      simp [bytesToHex, String.data_append]
    rw [this] at hc
    rcases List.mem_append.mp hc with hc | hc
    · rcases List.mem_cons.mp hc with hc | hc
      · exact hc ▸ hexChar_mem _
      · rcases List.mem_cons.mp hc with hc | hc
        · exact hc ▸ hexChar_mem _
        · cases hc
    · exact ih c hc

theorem bytesToHex_length (l : List Nat) :
    (bytesToHex l).length = 2 * l.length := by
  induction l with
  | nil => rfl
  | cons b bs ih =>
    show (String.mk [hexChar (b / 16 % 16), hexChar (b % 16)] ++ bytesToHex bs).length
      = 2 * (b :: bs).length
    rw [String.length_append, ih]
    simp [String.length, List.length]
    omega

theorem calculate_hash_length (j : Json) : (calculate_hash j).length = 64 := by
  unfold calculate_hash sha256hex
  rw [bytesToHex_length]
  simp [regsBytes, wordBytes]

theorem calculate_hash_chars (j : Json) :
    ∀ c ∈ (calculate_hash j).data, c ∈ hexDigits :=
  bytesToHex_chars _

theorem hexDigits_nonspace : ∀ c ∈ hexDigits, isPySpace c = false := by decide

theorem hexDigits_lower : ∀ c ∈ hexDigits, isLowerHex c = true := by decide

theorem calculate_hash_stripped (j : Json) :
    pyStrip (calculate_hash j) = calculate_hash j := by
  show String.mk (stripChars (calculate_hash j).data) = calculate_hash j
  rw [stripChars_nonspace
    (fun c hc => hexDigits_nonspace c (calculate_hash_chars j c hc))]

theorem read_after_save (j : Json) :
    read_last_hash (some (save_hash (calculate_hash j))) = calculate_hash j :=
  read_save_roundtrip (calculate_hash_stripped j)

/-- Evaluation of a run whose document fingerprint equals the stored one. -/
theorem runMain_unchanged {d : Json} (io : IOBehavior) (ts : String) {w : World}
    (h : calculate_hash d = read_last_hash w.lastHashFile) :
    runMain (FetchOutcome.success d) io ts w =
      ({ w with stdout := w.stdout ++
          ["Downloading data from " ++ url,
           "Current hash: " ++ calculate_hash d,
           "Last hash: " ++ read_last_hash w.lastHashFile,
           "No changes detected"] }, RunOutcome.normal) := by
  simp [runMain, h]

/-- Evaluation of a fully successful run on a changed document. -/
theorem runMain_changed_ok {d : Json} (ts : String) {w : World}
    (h : calculate_hash d ≠ read_last_hash w.lastHashFile) :
    runMain (FetchOutcome.success d) noFail ts w =
      ({ lastHashFile := some (save_hash (calculate_hash d)),
         snapshots := w.snapshots ++ [snapshotContent d],
         stdout := w.stdout ++
          ["Downloading data from " ++ url,
           "Current hash: " ++ calculate_hash d,
           "Last hash: " ++ read_last_hash w.lastHashFile,
           "Data has changed!",
           "Snapshot saved: snapshots/tour_" ++ ts ++ ".json",
           "Hash updated successfully"] }, RunOutcome.normal) := by
  simp [runMain, h, noFail]

/-! ### The claims. -/

/-- C1: for every JSON-compatible value (objects carry distinct keys, as
Python dicts do), computing the fingerprint twice yields the same result, and
reordering object keys at any nesting level yields the identical
fingerprint. -/
theorem hash_deterministic_and_key_order_invariant (a b : Json)
    (hwf : wfJson a = true) (hp : KeyPerm a b) :
    calculate_hash a = calculate_hash a ∧ calculate_hash a = calculate_hash b := by
  refine ⟨rfl, ?_⟩
  show sha256hex (utf8Bytes (ser (canon a))) = sha256hex (utf8Bytes (ser (canon b)))
  rw [(canon_keyPerm_all (jsize a)).1 a b (le_refl _) hwf hp]

/-- Witness for C1: the two-key example document and its key-reordered
variant hash identically. -/
theorem hash_key_order_invariant_witness :
    wfJson sampleDoc = true ∧
    calculate_hash sampleDoc = calculate_hash sampleDocReordered :=
  ⟨by decide,
   (hash_deterministic_and_key_order_invariant sampleDoc sampleDocReordered
     (by decide)
     (KeyPerm.obj
       (KeyPermPairs.cons (KeyPerm.num 2)
         (KeyPermPairs.cons (KeyPerm.num 1) KeyPermPairs.nil))
       (List.Perm.swap _ _ _))).2⟩

/-- C2: the fingerprint record is never advanced unless the snapshot of the
same run was written, and if the snapshot write fails the run aborts (the
IOError propagates) with the fingerprint record and snapshot set untouched. -/
theorem snapshot_write_precedes_hash_update (fetch : FetchOutcome)
    (io : IOBehavior) (ts : String) (w : World) :
    ((runMain fetch io ts w).1.lastHashFile = w.lastHashFile ∨
      ∃ d, fetch = FetchOutcome.success d ∧ io.snapshotFails = false ∧
        (runMain fetch io ts w).1.snapshots = w.snapshots ++ [snapshotContent d]) ∧
    (∀ d, fetch = FetchOutcome.success d → io.snapshotFails = true →
      calculate_hash d ≠ read_last_hash w.lastHashFile →
      (runMain fetch io ts w).2 = RunOutcome.uncaught ("IOError: snapshot write failed") ∧
      (runMain fetch io ts w).1.lastHashFile = w.lastHashFile ∧
      (runMain fetch io ts w).1.snapshots = w.snapshots) := by
  cases fetch with
  | requestError e =>
    refine ⟨Or.inl ?_, ?_⟩
    · simp [runMain]
    · intro d hd; cases hd
  | otherError e =>
    refine ⟨Or.inl ?_, ?_⟩
    · simp [runMain]
    · intro d hd; cases hd
  | success d =>
    by_cases hc : calculate_hash d = read_last_hash w.lastHashFile
    · refine ⟨Or.inl ?_, ?_⟩
      · simp [runMain, hc]
      · intro d2 hd2 _ hne
        cases hd2
        exact absurd hc hne
    · cases hsf : io.snapshotFails with
      | true =>
        refine ⟨Or.inl ?_, ?_⟩
        · simp [runMain, hc, hsf]
        · intro d2 hd2 _ _
          cases hd2
          refine ⟨?_, ?_, ?_⟩ <;> simp [runMain, hc, hsf]
      | false =>
        cases hhf : io.hashWriteFails with
        | true =>
          refine ⟨Or.inl ?_, ?_⟩
          · simp [runMain, hc, hsf, hhf]
          · intro d2 hd2 hsf2 _
            exact Bool.noConfusion hsf2
        | false =>
          refine ⟨Or.inr ⟨d, rfl, rfl, ?_⟩, ?_⟩
          · simp [runMain, hc, hsf, hhf]
          · intro d2 hd2 hsf2 _
            exact Bool.noConfusion hsf2

/-- Witness for C2: with a failing snapshot write on a changed document, the
run raises and leaves the fingerprint record and the snapshot set alone. -/
theorem snapshot_write_precedes_hash_update_witness :
    (runMain (FetchOutcome.success sampleDoc) ⟨true, false⟩ ("20250101_120000")
        freshWorld).2 = RunOutcome.uncaught ("IOError: snapshot write failed") ∧
    (runMain (FetchOutcome.success sampleDoc) ⟨true, false⟩ ("20250101_120000")
        freshWorld).1.lastHashFile = none ∧
    (runMain (FetchOutcome.success sampleDoc) ⟨true, false⟩ ("20250101_120000")
        freshWorld).1.snapshots = [] :=
  (snapshot_write_precedes_hash_update (FetchOutcome.success sampleDoc)
    ⟨true, false⟩ ("20250101_120000") freshWorld).2 sampleDoc rfl rfl
    (by decide)

/-- C3: when the fetch step fails, the run leaves no snapshot behind, keeps
the fingerprint record unmodified, reports the error on stdout and returns
normally. -/
theorem fetch_failure_no_side_effects (fetch : FetchOutcome) (io : IOBehavior)
    (ts : String) (w : World) (h : isFetchFailure fetch = true) :
    (runMain fetch io ts w).1.snapshots = w.snapshots ∧
    (runMain fetch io ts w).1.lastHashFile = w.lastHashFile ∧
    (runMain fetch io ts w).2 = RunOutcome.normal ∧
    (∃ e, (fetch = FetchOutcome.requestError e ∧
        (runMain fetch io ts w).1.stdout =
          w.stdout ++ ["Downloading data from " ++ url, "Error downloading data: " ++ e]) ∨
      (fetch = FetchOutcome.otherError e ∧
        (runMain fetch io ts w).1.stdout =
          w.stdout ++ ["Downloading data from " ++ url, "Unexpected error: " ++ e])) := by
  cases fetch with
  | success d => cases h
  | requestError e =>
    refine ⟨by simp [runMain], by simp [runMain], by simp [runMain],
      ⟨e, Or.inl ⟨rfl, by simp [runMain]⟩⟩⟩
  | otherError e =>
    refine ⟨by simp [runMain], by simp [runMain], by simp [runMain],
      ⟨e, Or.inr ⟨rfl, by simp [runMain]⟩⟩⟩

/-- Witness for C3: a concrete timed-out fetch leaves the fresh state
untouched and ends normally. -/
theorem fetch_failure_no_side_effects_witness :
    isFetchFailure (FetchOutcome.requestError ("timed out")) = true ∧
    (runMain (FetchOutcome.requestError ("timed out")) noFail ("20250101_120000")
        freshWorld).1.snapshots = [] ∧
    (runMain (FetchOutcome.requestError ("timed out")) noFail ("20250101_120000")
        freshWorld).1.lastHashFile = none ∧
    (runMain (FetchOutcome.requestError ("timed out")) noFail ("20250101_120000")
        freshWorld).2 = RunOutcome.normal :=
  ⟨rfl,
   (fetch_failure_no_side_effects (FetchOutcome.requestError ("timed out"))
     noFail ("20250101_120000") freshWorld rfl).1,
   (fetch_failure_no_side_effects (FetchOutcome.requestError ("timed out"))
     noFail ("20250101_120000") freshWorld rfl).2.1,
   (fetch_failure_no_side_effects (FetchOutcome.requestError ("timed out"))
     noFail ("20250101_120000") freshWorld rfl).2.2.1⟩

/-- C4: two successive runs on the same document (starting from a state whose
stored fingerprint differs from the document's, e.g. a fresh one) produce
exactly one snapshot in total, and the fingerprint record after the second
run is the value written by the first. -/
theorem second_run_writes_nothing (d : Json) (ts1 ts2 : String) (w : World)
    (h : read_last_hash w.lastHashFile ≠ calculate_hash d) :
    (runMain (FetchOutcome.success d) noFail ts2
        (runMain (FetchOutcome.success d) noFail ts1 w).1).1.snapshots =
      w.snapshots ++ [snapshotContent d] ∧
    (runMain (FetchOutcome.success d) noFail ts1 w).1.lastHashFile =
      some (save_hash (calculate_hash d)) ∧
    (runMain (FetchOutcome.success d) noFail ts2
        (runMain (FetchOutcome.success d) noFail ts1 w).1).1.lastHashFile =
      some (save_hash (calculate_hash d)) := by
  have hc : calculate_hash d ≠ read_last_hash w.lastHashFile := fun e => h e.symm
  rw [runMain_changed_ok ts1 hc,
    runMain_unchanged noFail ts2 ((read_after_save d).symm)]
  exact ⟨rfl, rfl, rfl⟩

set_option maxRecDepth 100000 in
/-- Witness for C4 at the example document from a fresh state. -/
theorem second_run_writes_nothing_witness :
    read_last_hash freshWorld.lastHashFile ≠ calculate_hash sampleDoc ∧
    (runMain (FetchOutcome.success sampleDoc) noFail ("20250101_120100")
        (runMain (FetchOutcome.success sampleDoc) noFail ("20250101_120000")
          freshWorld).1).1.snapshots = [snapshotContent sampleDoc] :=
  ⟨by decide,
   (second_run_writes_nothing sampleDoc ("20250101_120000") ("20250101_120100")
     freshWorld (by decide)).1⟩

/-- C5: on a first run (no fingerprint record), the stored fingerprint reads
as the empty string, the document counts as changed, and the run writes
exactly one snapshot and one fingerprint record, returning normally. -/
theorem first_run_persists (d : Json) (ts : String) (w : World)
    (h : w.lastHashFile = none) :
    read_last_hash w.lastHashFile = "" ∧
    (runMain (FetchOutcome.success d) noFail ts w).1.snapshots =
      w.snapshots ++ [snapshotContent d] ∧
    (runMain (FetchOutcome.success d) noFail ts w).1.lastHashFile =
      some (save_hash (calculate_hash d)) ∧
    (runMain (FetchOutcome.success d) noFail ts w).2 = RunOutcome.normal := by
  have hread : read_last_hash w.lastHashFile = "" := by rw [h]; rfl
  have hc : calculate_hash d ≠ read_last_hash w.lastHashFile := by
    rw [hread]
    intro he
    have hl := calculate_hash_length d
    rw [he] at hl
    cases hl
  exact ⟨hread, by simp [runMain, hc, noFail], by simp [runMain, hc, noFail],
    by simp [runMain, hc, noFail]⟩

set_option maxRecDepth 100000 in
/-- Witness for C5 at the example document. -/
theorem first_run_persists_witness :
    freshWorld.lastHashFile = none ∧
    (runMain (FetchOutcome.success sampleDoc) noFail ("20250101_120000")
        freshWorld).1.lastHashFile = some (save_hash (calculate_hash sampleDoc)) :=
  ⟨rfl,
   (first_run_persists sampleDoc ("20250101_120000") freshWorld rfl).2.2.1⟩

set_option maxRecDepth 100000 in
/-- C6: for the document parsed from the JSON text with keys b then a, the
canonical serialization is the sorted compact form, the snapshot written by
one run is exactly the pretty-printed sorted bytes with a final newline, and
last_hash.txt holds the lowercase SHA-256 hex digest of the canonical
serialization plus a trailing newline. -/
theorem example_document_serialization_and_run :
    dumpsCompact sampleDoc = "\x7b\"a\":1,\"b\":2\x7d" ∧
    calculate_hash sampleDoc = sha256hex (utf8Bytes (dumpsCompact sampleDoc)) ∧
    calculate_hash sampleDoc =
      "43258cff783fe7036d8a43033f830adfc60ec037382473548ac742b888292777" ∧
    (runMain (FetchOutcome.success sampleDoc) noFail ("20250101_120000")
        freshWorld).1.snapshots = ["\x7b\n  \"a\": 1,\n  \"b\": 2\n\x7d\n"] ∧
    (runMain (FetchOutcome.success sampleDoc) noFail ("20250101_120000")
        freshWorld).1.lastHashFile =
      some ("43258cff783fe7036d8a43033f830adfc60ec037382473548ac742b888292777\n") :=
  ⟨by decide, rfl, by decide, by decide, by decide⟩

/-- C7: the fingerprint store round-trips: writing any fingerprint without
surrounding whitespace and reading it back returns it exactly despite the
trailing newline in the file, and reading with no record present returns the
empty string. -/
theorem store_roundtrip (h : String) (hs : pyStrip h = h) :
    read_last_hash (some (save_hash h)) = h ∧ read_last_hash none = "" :=
  ⟨read_save_roundtrip hs, rfl⟩

/-- Witness for C7 on a concrete fingerprint string. -/
theorem store_roundtrip_witness :
    pyStrip ("abc123") = "abc123" ∧
    read_last_hash (some (save_hash ("abc123"))) = "abc123" :=
  ⟨by decide, (store_roundtrip ("abc123") (by decide)).1⟩

/-- C9: reading the record strips all leading and trailing whitespace, not
just the trailing newline: reading a file holding any string returns the
string stripped, and a stored fingerprint surrounded by arbitrary whitespace
still reads back as exactly the fingerprint of the document. -/
theorem read_strips_all_whitespace (s w1 w2 : String) (j : Json)
    (h1 : allSpace w1 = true) (h2 : allSpace w2 = true) :
    read_last_hash (some s) = pyStrip s ∧
    read_last_hash (some (w1 ++ calculate_hash j ++ w2)) = calculate_hash j := by
  refine ⟨rfl, ?_⟩
  have hw1 : ∀ c ∈ w1.data, isPySpace c = true := by
    have := List.all_eq_true.mp h1
    simpa using this
  have hw2 : ∀ c ∈ w2.data, isPySpace c = true := by
    have := List.all_eq_true.mp h2
    simpa using this
  show String.mk (stripChars (w1 ++ calculate_hash j ++ w2).data) = calculate_hash j
  have hdata : (w1 ++ calculate_hash j ++ w2).data =
      w1.data ++ ((calculate_hash j).data ++ w2.data) := by
    rw [String.data_append, String.data_append, List.append_assoc]
  rw [hdata, stripChars_left_pad hw1, stripChars_right_pad hw2,
    stripChars_nonspace
      (fun c hc => hexDigits_nonspace c (calculate_hash_chars j c hc))]

set_option maxRecDepth 100000 in
/-- Witness for C9 with real whitespace padding around the example digest. -/
theorem read_strips_all_whitespace_witness :
    allSpace (" \t\n") = true ∧ allSpace ("\n\n ") = true ∧
    read_last_hash (some ((" \t\n") ++ calculate_hash sampleDoc ++ ("\n\n "))) =
      calculate_hash sampleDoc :=
  ⟨by decide, by decide,
   (read_strips_all_whitespace ("x") (" \t\n") ("\n\n ") sampleDoc
     (by decide) (by decide)).2⟩

/-- C10: every fingerprint is a string of exactly 64 lowercase hex
characters; in particular it is never the empty string, so it can never
collide with the empty-string sentinel read on a first run. -/
theorem hash_is_64_lowercase_hex (j : Json) :
    (calculate_hash j).length = 64 ∧
    (calculate_hash j).data.all isLowerHex = true ∧
    calculate_hash j ≠ "" ∧
    calculate_hash j ≠ read_last_hash none := by
  have hl := calculate_hash_length j
  have hne : calculate_hash j ≠ "" := by
    intro he
    rw [he] at hl
    cases hl
  refine ⟨hl, ?_, hne, hne⟩
  rw [List.all_eq_true]
  intro c hc
  exact hexDigits_lower c (calculate_hash_chars j c (by simpa using hc))

/-- Witness for C10 at the example document. -/
theorem hash_is_64_lowercase_hex_witness :
    (calculate_hash sampleDoc).length = 64 ∧ calculate_hash sampleDoc ≠ "" :=
  ⟨(hash_is_64_lowercase_hex sampleDoc).1,
   (hash_is_64_lowercase_hex sampleDoc).2.2.1⟩

set_option maxRecDepth 100000 in
/-- C8 counterexample: an IOError raised by the snapshot write is NOT caught
at the orchestrator boundary: the run ends with the exception propagating
uncaught, and stdout carries no line describing the error. -/
theorem io_error_uncaught_counterexample :
    (runMain (FetchOutcome.success sampleDoc) ⟨true, false⟩ ("20250101_120000")
        freshWorld).2 = RunOutcome.uncaught ("IOError: snapshot write failed") ∧
    (runMain (FetchOutcome.success sampleDoc) ⟨true, false⟩ ("20250101_120000")
        freshWorld).1.stdout =
      ["Downloading data from " ++ url,
       "Current hash: " ++ calculate_hash sampleDoc,
       "Last hash: ", "Data has changed!"] := by
  constructor
  · decide
  · decide

/-- C8 amended: the two fetch-step error kinds are caught at the orchestrator
boundary, logged to stdout and the run returns normally; but an IOError from
the snapshot write or the fingerprint write is not caught and propagates out
of main uncaught. -/
theorem error_handling_boundary (fetch : FetchOutcome) (io : IOBehavior)
    (ts : String) (w : World) :
    (∀ e, fetch = FetchOutcome.requestError e →
      (runMain fetch io ts w).2 = RunOutcome.normal ∧
      (runMain fetch io ts w).1.stdout =
        w.stdout ++ ["Downloading data from " ++ url, "Error downloading data: " ++ e]) ∧
    (∀ e, fetch = FetchOutcome.otherError e →
      (runMain fetch io ts w).2 = RunOutcome.normal ∧
      (runMain fetch io ts w).1.stdout =
        w.stdout ++ ["Downloading data from " ++ url, "Unexpected error: " ++ e]) ∧
    (∀ d, fetch = FetchOutcome.success d →
      calculate_hash d ≠ read_last_hash w.lastHashFile →
      io.snapshotFails = true →
      (runMain fetch io ts w).2 =
        RunOutcome.uncaught ("IOError: snapshot write failed")) ∧
    (∀ d, fetch = FetchOutcome.success d →
      calculate_hash d ≠ read_last_hash w.lastHashFile →
      io.snapshotFails = false → io.hashWriteFails = true →
      (runMain fetch io ts w).2 =
        RunOutcome.uncaught ("IOError: hash write failed")) := by
  refine ⟨?_, ?_, ?_, ?_⟩
  · intro e he; subst he; exact ⟨by simp [runMain], by simp [runMain]⟩
  · intro e he; subst he; exact ⟨by simp [runMain], by simp [runMain]⟩
  · intro d hd hc hsf
    subst hd
    simp [runMain, hc, hsf]
  · intro d hd hc hsf hhf
    subst hd
    simp [runMain, hc, hsf, hhf]

set_option maxRecDepth 100000 in
/-- Witness for the amended C8: a concrete fetch failure is logged and the
run ends normally, while a concrete failing snapshot write propagates. -/
theorem error_handling_boundary_witness :
    ((runMain (FetchOutcome.requestError ("boom")) noFail ("20250101_120000")
        freshWorld).2 = RunOutcome.normal ∧
      (runMain (FetchOutcome.requestError ("boom")) noFail ("20250101_120000")
        freshWorld).1.stdout =
        ["Downloading data from " ++ url, "Error downloading data: " ++ ("boom")]) ∧
    (runMain (FetchOutcome.success sampleDoc) ⟨true, false⟩ ("20250101_120000")
        freshWorld).2 = RunOutcome.uncaught ("IOError: snapshot write failed") :=
  ⟨by
    have := (error_handling_boundary (FetchOutcome.requestError ("boom")) noFail
      ("20250101_120000") freshWorld).1 ("boom") rfl
    simpa using this,
   (error_handling_boundary (FetchOutcome.success sampleDoc) ⟨true, false⟩
     ("20250101_120000") freshWorld).2.2.1 sampleDoc rfl (by decide) rfl⟩

end Tracker
